import Mathlib

/-!
# Verification of the Schengen demo payment worker

A shallow embedding of `worker/src/index.ts` of the `schengen-form-filler`
demo: the JWT-style token issuer (`base64UrlEncode`, `createHmacSignature`,
`createToken`) and the payment redemption handler (`handleVerifyPayment`),
together with proofs of the spec's claims about them.

Bytes are modelled as `Nat` values below 256, machine words of SHA-256 as
`Nat` values reduced modulo `2 ^ 32`, and strings as Lean `String`s whose
UTF-8 bytes are computed by an explicit encoder.  The ambient clock of the
Worker runtime (`Date.now()` and `new Date().toISOString()`) is passed in
explicitly as a `Clock` value, and the Cloudflare KV namespace as an explicit
association list, so every function of the worker becomes a pure function of
its inputs plus these explicit environments.
-/

namespace SchengenWorker

/-! ## Base64 as performed by `btoa` followed by the URL-safe rewrites

`base64UrlEncode` in the worker builds standard base64 with `btoa` over the
raw bytes, then replaces `+` by `-`, `/` by `_`, and strips the trailing
`=` padding. -/

/-- The standard base64 alphabet used by `btoa`. -/
def base64Chars : String :=
  "ABCDEFGHIJKLMNOPQRSTUVWXYZabcdefghijklmnopqrstuvwxyz0123456789+/"

/-- Character of the standard base64 alphabet at index `i`. -/
def b64CharAt (i : Nat) : Char := base64Chars.toList.getD i 'A'

/-- `btoa` over a byte list: 3 bytes become 4 sextet characters, a 2-byte
tail becomes 3 characters plus one `=`, a 1-byte tail 2 characters plus
two `=`. -/
def btoaChunks : List Nat → List Char
  | b0 :: b1 :: b2 :: rest =>
      b64CharAt (b0 / 4) :: b64CharAt (b0 % 4 * 16 + b1 / 16) ::
      b64CharAt (b1 % 16 * 4 + b2 / 64) :: b64CharAt (b2 % 64) :: btoaChunks rest
  | [b0, b1] =>
      [b64CharAt (b0 / 4), b64CharAt (b0 % 4 * 16 + b1 / 16),
       b64CharAt (b1 % 16 * 4), '=']
  | [b0] => [b64CharAt (b0 / 4), b64CharAt (b0 % 4 * 16), '=', '=']
  | [] => []

/-- The worker's `.replace(/\+/g, '-').replace(/\//g, '_')` step. -/
def toBase64Url (c : Char) : Char :=
  if c = '+' then '-' else if c = '/' then '_' else c

/-- The worker's `.replace(/=+$/, '')` step: drop the trailing run of `=`. -/
def stripTrailingEq (cs : List Char) : List Char :=
  (cs.reverse.dropWhile (fun c => c = '=')).reverse

/-- `base64UrlEncode` of the worker, on a byte list: `btoa`, then the two
character rewrites, then stripping trailing padding. -/
def base64UrlEncode (bytes : List Nat) : String :=
  ⟨stripTrailingEq ((btoaChunks bytes).map toBase64Url)⟩

/-! ### A direct, padding-free description of the same encoding

`encNoPadChunks` produces base64url without ever materialising padding; the
bridge lemma below proves it equal to the worker's `btoa`-then-rewrite
pipeline, and the round-trip proofs are carried out against it. -/

/-- The base64url alphabet (`-` and `_` in place of `+` and `/`). -/
def base64UrlChars : String :=
  "ABCDEFGHIJKLMNOPQRSTUVWXYZabcdefghijklmnopqrstuvwxyz0123456789-_"

/-- Character of the base64url alphabet at index `i`. -/
def b64UrlCharAt (i : Nat) : Char := base64UrlChars.toList.getD i 'A'

/-- Index of a character in the base64url alphabet. -/
def b64UrlIndex (c : Char) : Nat := base64UrlChars.toList.indexOf c

/-- Membership in the base64url alphabet. -/
def isB64UrlChar (c : Char) : Bool := base64UrlChars.toList.contains c

/-- Direct base64url encoding without padding. -/
def encNoPadChunks : List Nat → List Char
  | b0 :: b1 :: b2 :: rest =>
      b64UrlCharAt (b0 / 4) :: b64UrlCharAt (b0 % 4 * 16 + b1 / 16) ::
      b64UrlCharAt (b1 % 16 * 4 + b2 / 64) :: b64UrlCharAt (b2 % 64) ::
      encNoPadChunks rest
  | [b0, b1] =>
      [b64UrlCharAt (b0 / 4), b64UrlCharAt (b0 % 4 * 16 + b1 / 16),
       b64UrlCharAt (b1 % 16 * 4)]
  | [b0] => [b64UrlCharAt (b0 / 4), b64UrlCharAt (b0 % 4 * 16)]
  | [] => []

/-- base64url decoding of an unpadded character list back to bytes. -/
def decChunks : List Char → List Nat
  | c0 :: c1 :: c2 :: c3 :: rest =>
      (b64UrlIndex c0 * 4 + b64UrlIndex c1 / 16) ::
      (b64UrlIndex c1 % 16 * 16 + b64UrlIndex c2 / 4) ::
      (b64UrlIndex c2 % 4 * 64 + b64UrlIndex c3) :: decChunks rest
  | [c0, c1, c2] =>
      [b64UrlIndex c0 * 4 + b64UrlIndex c1 / 16,
       b64UrlIndex c1 % 16 * 16 + b64UrlIndex c2 / 4]
  | [c0, c1] => [b64UrlIndex c0 * 4 + b64UrlIndex c1 / 16]
  | [_] => []
  | [] => []

/-- base64url decoding of a string. -/
def base64UrlDecode (s : String) : List Nat := decChunks s.toList

/-! ## UTF-8, as performed by `TextEncoder` -/

/-- The UTF-8 bytes of one code point. -/
def utf8EncodeCharNat (c : Char) : List Nat :=
  let n := c.toNat
  if n < 128 then [n]
  else if n < 2048 then [192 + n / 64, 128 + n % 64]
  else if n < 65536 then [224 + n / 4096, 128 + n / 64 % 64, 128 + n % 64]
  else [240 + n / 262144, 128 + n / 4096 % 64, 128 + n / 64 % 64, 128 + n % 64]

/-- The UTF-8 bytes of a string (`new TextEncoder().encode(...)`). -/
def utf8Bytes (s : String) : List Nat :=
  (s.toList.map utf8EncodeCharNat).flatten

example : base64UrlEncode (utf8Bytes "Man") = "TWFu" := by decide
example : base64UrlEncode (utf8Bytes "Ma") = "TWE" := by decide
example : base64UrlEncode (utf8Bytes "M") = "TQ" := by decide
example : base64UrlDecode "TWE" = utf8Bytes "Ma" := by decide

/-! ## SHA-256 and HMAC

`createHmacSignature` in the worker delegates to WebCrypto
(`crypto.subtle.sign('HMAC', ..., hash: 'SHA-256')`); the platform primitive
is embedded here as the standard HMAC-SHA-256 algorithm over byte lists,
with 32-bit words as `Nat` values reduced modulo `2 ^ 32`. -/

/-- Reduction to a 32-bit word. -/
def w32 (n : Nat) : Nat := n % 4294967296

/-- Right rotation of a 32-bit word by `n` bits. -/
def rotr32 (n x : Nat) : Nat := x / 2 ^ n + x % 2 ^ n * 2 ^ (32 - n)

/-- Logical right shift by `n` bits. -/
def shr32 (n x : Nat) : Nat := x / 2 ^ n

/-- Bitwise complement of a 32-bit word. -/
def not32 (x : Nat) : Nat := 4294967295 - x

/-- SHA-256 `Ch(e, f, g)`. -/
def shaCh (e f g : Nat) : Nat := (e &&& f) ^^^ (not32 e &&& g)

/-- SHA-256 `Maj(a, b, c)`. -/
def shaMaj (a b c : Nat) : Nat := (a &&& b) ^^^ (a &&& c) ^^^ (b &&& c)

/-- SHA-256 big sigma 0. -/
def bigSig0 (x : Nat) : Nat := rotr32 2 x ^^^ rotr32 13 x ^^^ rotr32 22 x

/-- SHA-256 big sigma 1. -/
def bigSig1 (x : Nat) : Nat := rotr32 6 x ^^^ rotr32 11 x ^^^ rotr32 25 x

/-- SHA-256 small sigma 0. -/
def smallSig0 (x : Nat) : Nat := rotr32 7 x ^^^ rotr32 18 x ^^^ shr32 3 x

/-- SHA-256 small sigma 1. -/
def smallSig1 (x : Nat) : Nat := rotr32 17 x ^^^ rotr32 19 x ^^^ shr32 10 x

/-- The 64 SHA-256 round constants (FIPS 180-4, in decimal). -/
def shaK : List Nat :=
  [1116352408, 1899447441, 3049323471,
   3921009573, 961987163, 1508970993,
   2453635748, 2870763221, 3624381080,
   310598401, 607225278, 1426881987,
   1925078388, 2162078206, 2614888103,
   3248222580, 3835390401, 4022224774,
   264347078, 604807628, 770255983,
   1249150122, 1555081692, 1996064986,
   2554220882, 2821834349, 2952996808,
   3210313671, 3336571891, 3584528711,
   113926993, 338241895, 666307205,
   773529912, 1294757372, 1396182291,
   1695183700, 1986661051, 2177026350,
   2456956037, 2730485921, 2820302411,
   3259730800, 3345764771, 3516065817,
   3600352804, 4094571909, 275423344,
   430227734, 506948616, 659060556,
   883997877, 958139571, 1322822218,
   1537002063, 1747873779, 1955562222,
   2024104815, 2227730452, 2361852424,
   2428436474, 2756734187, 3204031479,
   3329325298]

/-- The SHA-256 initial hash state (FIPS 180-4, in decimal). -/
def shaInitH : List Nat :=
  [1779033703, 3144134277, 1013904242,
   2773480762, 1359893119, 2600822924,
   528734635, 1541459225]

/-- SHA-256 padding: append `0x80`, zeros, and the 64-bit big-endian bit
length, reaching a multiple of 64 bytes. -/
def sha256Pad (msg : List Nat) : List Nat :=
  let len := msg.length
  let zeros := (119 - len % 64) % 64
  let bits := len * 8
  msg ++ [128] ++ List.replicate zeros 0 ++
    [bits / 2 ^ 56 % 256, bits / 2 ^ 48 % 256, bits / 2 ^ 40 % 256,
     bits / 2 ^ 32 % 256, bits / 2 ^ 24 % 256, bits / 2 ^ 16 % 256,
     bits / 2 ^ 8 % 256, bits % 256]

/-- Big-endian packing of bytes into 32-bit words. -/
def bytesToWords : List Nat → List Nat
  | a :: b :: c :: d :: rest =>
      (a * 16777216 + b * 65536 + c * 256 + d) :: bytesToWords rest
  | _ => []

/-- Big-endian unpacking of a 32-bit word into its 4 bytes. -/
def wordBytes (w : Nat) : List Nat :=
  [w / 16777216 % 256, w / 65536 % 256, w / 256 % 256, w % 256]

/-- The SHA-256 message schedule: extend 16 words to 64. -/
def msgSchedule (m : List Nat) : List Nat :=
  (List.range 48).foldl
    (fun ws i =>
      ws ++ [w32 (smallSig1 (ws.getD (i + 14) 0) + ws.getD (i + 9) 0 +
                  smallSig0 (ws.getD (i + 1) 0) + ws.getD i 0)])
    m

/-- One round of the SHA-256 compression function.  The state is the list
`[a, b, c, d, e, f, g, h]`; `wk` is the scheduled word plus round constant. -/
def shaRound (st : List Nat) (wk : Nat × Nat) : List Nat :=
  let a := st.getD 0 0
  let b := st.getD 1 0
  let c := st.getD 2 0
  let d := st.getD 3 0
  let e := st.getD 4 0
  let f := st.getD 5 0
  let g := st.getD 6 0
  let h := st.getD 7 0
  let t1 := w32 (h + bigSig1 e + shaCh e f g + wk.2 + wk.1)
  let t2 := w32 (bigSig0 a + shaMaj a b c)
  [w32 (t1 + t2), a, b, c, w32 (d + t1), e, f, g]

/-- Compression of one 64-byte block into the running hash state. -/
def sha256CompressBlock (hstate block : List Nat) : List Nat :=
  let ws := msgSchedule (bytesToWords block)
  let fin := (ws.zip shaK).foldl shaRound hstate
  (List.range 8).map (fun i => w32 (hstate.getD i 0 + fin.getD i 0))

/-- SHA-256 of a byte list, as a list of 32 bytes. -/
def sha256 (msg : List Nat) : List Nat :=
  let padded := sha256Pad msg
  let nBlocks := padded.length / 64
  let finalH := (List.range nBlocks).foldl
    (fun hs i => sha256CompressBlock hs ((padded.drop (64 * i)).take 64))
    shaInitH
  (finalH.map wordBytes).flatten

/-- HMAC-SHA-256 over byte lists, with the standard 64-byte block size. -/
def hmacSha256 (key msg : List Nat) : List Nat :=
  let k0 := if 64 < key.length then sha256 key else key
  let kp := k0 ++ List.replicate (64 - k0.length) 0
  let ipad := kp.map (fun b => b ^^^ 54)
  let opad := kp.map (fun b => b ^^^ 92)
  sha256 (opad ++ sha256 (ipad ++ msg))

/-! ## JSON serialization as performed by `JSON.stringify`

The worker serializes two fixed object shapes (the JWT header and payload).
`JSON.stringify` emits object keys in insertion order and escapes string
values as below. -/

/-- Lowercase hex digit. -/
def hexDigit (i : Nat) : Char := "0123456789abcdef".toList.getD i '0'

/-- `JSON.stringify` escaping of one character inside a string literal. -/
def jsonEscapeChar (c : Char) : List Char :=
  if c = '"' then ['\\', '"']
  else if c = '\\' then ['\\', '\\']
  else if c = '\x08' then ['\\', 'b']
  else if c = '\t' then ['\\', 't']
  else if c = '\n' then ['\\', 'n']
  else if c = '\x0c' then ['\\', 'f']
  else if c = '\r' then ['\\', 'r']
  else if c.toNat < 32 then
    ['\\', 'u', '0', '0', hexDigit (c.toNat / 16), hexDigit (c.toNat % 16)]
  else [c]

/-- A JSON string literal with quotes and escaping. -/
def jsonStr (s : String) : String :=
  "\"" ++ String.mk ((s.toList.map jsonEscapeChar).flatten) ++ "\""

/-- `JSON.stringify({alg: 'HS256', typ: 'JWT'})`. -/
def headerJson : String := "\x7b\"alg\":\"HS256\",\"typ\":\"JWT\"\x7d"

/-- The nested budget record of the token payload: the `ai` and `compute`
amounts passed to `createToken`, the fixed `'lifetime'` window label, and
`new Date().toISOString()` as `windowStart`. -/
structure BudgetRec where
  ai : Nat
  compute : Nat
  window : String
  windowStart : String
  deriving DecidableEq, Repr

/-- The JWT payload object built by `createToken`. -/
structure Payload where
  sub : String
  iss : String
  iat : Nat
  exp : Nat
  budget : BudgetRec
  deriving DecidableEq, Repr

/-- `JSON.stringify` of the payload object, keys in insertion order. -/
def payloadJson (p : Payload) : String :=
  "\x7b\"sub\":" ++ jsonStr p.sub ++ ",\"iss\":" ++ jsonStr p.iss ++
  ",\"iat\":" ++ toString p.iat ++ ",\"exp\":" ++ toString p.exp ++
  ",\"budget\":\x7b\"ai\":" ++ toString p.budget.ai ++
  ",\"compute\":" ++ toString p.budget.compute ++
  ",\"window\":" ++ jsonStr p.budget.window ++
  ",\"windowStart\":" ++ jsonStr p.budget.windowStart ++ "\x7d\x7d"

/-! ## The token issuer -/

/-- The `budget` argument of `createToken`. -/
structure Budget where
  ai : Nat
  compute : Nat
  deriving DecidableEq, Repr

/-- The ambient clock of the Worker runtime at the moment of issuance:
`Date.now()` in milliseconds, and `new Date().toISOString()` as a string. -/
structure Clock where
  nowMs : Nat
  isoNow : String
  deriving DecidableEq, Repr

/-- `createHmacSignature` of the worker: HMAC-SHA-256 of the UTF-8 bytes of
`data` keyed by the UTF-8 bytes of `secret`, base64url-encoded. -/
def createHmacSignature (secret data : String) : String :=
  base64UrlEncode (hmacSha256 (utf8Bytes secret) (utf8Bytes data))

/-- The payload record `createToken` builds:
`iat = Math.floor(Date.now() / 1000)`, `exp = iat + expiresIn`, and the
budget with the fixed `'lifetime'` window and ISO `windowStart`. -/
def tokenPayload (userId projectId : String) (budget : Budget)
    (expiresIn : Nat) (clock : Clock) : Payload :=
  let now := clock.nowMs / 1000
  { sub := userId, iss := projectId, iat := now, exp := now + expiresIn,
    budget := { ai := budget.ai, compute := budget.compute,
                window := "lifetime", windowStart := clock.isoNow } }

/-- `createToken` of the worker: base64url-encoded header and payload JSON,
joined with the HMAC signature over `encodedHeader + "." + encodedPayload`. -/
def createToken (userId projectId secret : String) (budget : Budget)
    (expiresIn : Nat) (clock : Clock) : String :=
  let payload := tokenPayload userId projectId budget expiresIn clock
  let encodedHeader := base64UrlEncode (utf8Bytes headerJson)
  let encodedPayload := base64UrlEncode (utf8Bytes (payloadJson payload))
  let signatureInput := encodedHeader ++ "." ++ encodedPayload
  let signature := createHmacSignature secret signatureInput
  encodedHeader ++ "." ++ encodedPayload ++ "." ++ signature

/-- The encoded header segment (`encodedHeader` in `createToken`). -/
def encodedHeader : String := base64UrlEncode (utf8Bytes headerJson)

/-- The encoded payload segment (`encodedPayload` in `createToken`). -/
def encodedPayload (p : Payload) : String :=
  base64UrlEncode (utf8Bytes (payloadJson p))

/-- The signature input (`signatureInput` in `createToken`). -/
def signingInput (p : Payload) : String :=
  encodedHeader ++ "." ++ encodedPayload p

/-- The signature segment (`signature` in `createToken`). -/
def tokenSignature (secret : String) (p : Payload) : String :=
  createHmacSignature secret (signingInput p)

/-! ## The redemption handler

`handleVerifyPayment` is embedded as a pure function of: the environment
bindings it reads, the parsed request body, the ambient clock, the payment
provider's answer (one call, keyed by payment id), and the KV store.  The
result records the response, the store afterwards, and which effects ran. -/

/-- The environment bindings `handleVerifyPayment` reads.  `apiKey` is
`none` when `DODO_API_KEY` is unset. -/
structure WorkerEnv where
  apiKey : Option String
  projectId : String
  hmacSecret : String
  deriving DecidableEq, Repr

/-- JavaScript falsiness of an optional string: absent or empty. -/
def isFalsy : Option String → Bool
  | none => true
  | some s => s = ""

/-- Outcome of `await request.json()` followed by reading `paymentId`:
either the parse threw, or it produced a body whose `paymentId` property
may be absent. -/
inductive BodyParse where
  | parseError
  | parsed (paymentId : Option String)
  deriving DecidableEq, Repr

/-- Outcome of the provider round-trip `GET {baseUrl}/payments/{id}`:
a JSON answer with a `status` field, a non-ok HTTP response, or a thrown
transport error. -/
inductive ProviderResult where
  | ok (status : String)
  | httpError (status : Nat) (text : String)
  | transportError
  deriving DecidableEq, Repr

/-- The JSON response bodies `handleVerifyPayment` produces. -/
inductive RespBody where
  | token (t : String)
  | err (e : String)
  | errStatus (e s : String)
  deriving DecidableEq, Repr

/-- The KV namespace: an association list shadowed on the left, so `put`
is an unconditional overwrite, with the `expirationTtl` recorded. -/
structure Store where
  entries : List (String × String × Nat)
  deriving DecidableEq, Repr

/-- `KV.get`: the most recently put value under a key, if any. -/
def Store.get (st : Store) (k : String) : Option String :=
  (st.entries.find? (fun e => e.1 = k)).map (fun e => e.2.1)

/-- `KV.put` with `expirationTtl`: unconditional overwrite. -/
def Store.put (st : Store) (k v : String) (ttl : Nat) : Store :=
  ⟨(k, v, ttl) :: st.entries⟩

/-- The observable outcome of one `handleVerifyPayment` call. -/
structure VerifyResult where
  status : Nat
  body : RespBody
  store : Store
  storeRead : Bool
  providerCalled : Bool
  minted : Option String
  deriving DecidableEq, Repr

/-- The miss path of `handleVerifyPayment`: call the provider, and on
`status == 'succeeded'` mint a token with the fixed budget
(`ai: 1_000_000`, `compute: 3600`), a 7-day expiry, and store it under
`payment:{paymentId}` with a 7-day TTL. -/
def verifyAndMint (env : WorkerEnv) (clock : Clock) (pid : String)
    (provider : String → ProviderResult) (store : Store) : VerifyResult :=
  match provider pid with
  | .transportError =>
      ⟨503, .err "Payment verification failed", store, true, true, none⟩
  | .httpError _ _ =>
      ⟨500, .err "Failed to verify payment", store, true, true, none⟩
  | .ok st =>
      if st ≠ "succeeded" then
        ⟨400, .errStatus "Payment not completed" st, store, true, true, none⟩
      else
        let token := createToken pid env.projectId env.hmacSecret
          ⟨1000000, 3600⟩ (86400 * 7) clock
        ⟨200, .token token, store.put ("payment:" ++ pid) token (86400 * 7),
         true, true, some token⟩

/-- `handleVerifyPayment` of the worker: configuration check, body parse,
`paymentId` presence check, replay lookup, then verification and minting. -/
def handleVerifyPayment (env : WorkerEnv) (clock : Clock) (body : BodyParse)
    (provider : String → ProviderResult) (store : Store) : VerifyResult :=
  if isFalsy env.apiKey then
    ⟨500, .err "Payment system not configured", store, false, false, none⟩
  else
    match body with
    | .parseError =>
        ⟨400, .err "Invalid request body", store, false, false, none⟩
    | .parsed pidOpt =>
        if isFalsy pidOpt then
          ⟨400, .err "paymentId is required", store, false, false, none⟩
        else
          let pid := pidOpt.getD ""
          match store.get ("payment:" ++ pid) with
          | some existing =>
              if existing = "" then verifyAndMint env clock pid provider store
              else ⟨200, .token existing, store, true, false, none⟩
          | none => verifyAndMint env clock pid provider store

/-! ## Interleaved execution of two concurrent redemption requests

The handler suspends at each `await`: the KV read, the provider fetch, the
WebCrypto signing inside `createToken`, and the KV write.  Two in-flight
requests for the same payment id therefore interleave at exactly these
points over the shared KV namespace.  `reqStep` advances one request by one
atomic section, and `runRace` folds a schedule over two requests. -/

/-- The progress of one in-flight request past the body and config checks:
which suspension point it has completed, carrying the values obtained. -/
inductive ReqPhase where
  | start
  | afterRead (existing : Option String)
  | afterVerify (status : String)
  | afterMint (token : String)
  | done (status : Nat) (body : RespBody)
  deriving DecidableEq, Repr

/-- Per-request data: payment id and the clock readings its `createToken`
call observes. -/
structure ReqCtx where
  pid : String
  clock : Clock
  deriving DecidableEq, Repr

/-- Advance one request by one atomic section against the shared store.
Returns the new phase, the store afterwards, and 1 when this section was
the `createToken` mint. -/
def reqStep (env : WorkerEnv) (provider : String → ProviderResult)
    (ctx : ReqCtx) : ReqPhase → Store → ReqPhase × Store × Nat
  | .start, st =>
      match st.get ("payment:" ++ ctx.pid) with
      | some t => (if t = "" then .afterRead none else .afterRead (some t), st, 0)
      | none => (.afterRead none, st, 0)
  | .afterRead (some t), st => (.done 200 (.token t), st, 0)
  | .afterRead none, st =>
      match provider ctx.pid with
      | .transportError => (.done 503 (.err "Payment verification failed"), st, 0)
      | .httpError _ _ => (.done 500 (.err "Failed to verify payment"), st, 0)
      | .ok s =>
          if s ≠ "succeeded" then
            (.done 400 (.errStatus "Payment not completed" s), st, 0)
          else (.afterVerify s, st, 0)
  | .afterVerify _, st =>
      (.afterMint (createToken ctx.pid env.projectId env.hmacSecret
          ⟨1000000, 3600⟩ (86400 * 7) ctx.clock), st, 1)
  | .afterMint token, st =>
      (.done 200 (.token token),
       st.put ("payment:" ++ ctx.pid) token (86400 * 7), 0)
  | .done s b, st => (.done s b, st, 0)

/-- The shared state of a two-request race: the KV store, each request's
phase, and how many `createToken` mints have run. -/
structure RaceState where
  store : Store
  phase0 : ReqPhase
  phase1 : ReqPhase
  mints : Nat
  deriving DecidableEq, Repr

/-- Run the scheduled request (`false` = request 0, `true` = request 1) for
one atomic section. -/
def raceStep (env : WorkerEnv) (provider : String → ProviderResult)
    (c0 c1 : ReqCtx) (s : RaceState) (who : Bool) : RaceState :=
  if who then
    let (ph, st, m) := reqStep env provider c1 s.phase1 s.store
    ⟨st, s.phase0, ph, s.mints + m⟩
  else
    let (ph, st, m) := reqStep env provider c0 s.phase0 s.store
    ⟨st, ph, s.phase1, s.mints + m⟩

/-- Fold a schedule of atomic sections over two requests sharing a store. -/
def runRace (env : WorkerEnv) (provider : String → ProviderResult)
    (c0 c1 : ReqCtx) (sched : List Bool) (store : Store) : RaceState :=
  sched.foldl (raceStep env provider c0 c1) ⟨store, .start, .start, 0⟩

/-! ### A concrete race

Two requests for the same unseen, settled payment id, whose clock readings
differ by one millisecond (so their ISO `windowStart` strings differ), are
interleaved so that both KV reads precede both KV writes — an interleaving
the handler permits, since nothing serializes the get/put pair.  -/

/-- A configured environment for the race scenario. -/
def raceEnv : WorkerEnv := ⟨some "k", "j", "s"⟩

/-- A provider that reports the payment settled. -/
def raceProvider : String → ProviderResult := fun _ => .ok "succeeded"

/-- First racing request: payment `p`, clock at millisecond 0. -/
def raceCtx0 : ReqCtx := ⟨"p", ⟨0, "A"⟩⟩

/-- Second racing request: same payment id, one millisecond later. -/
def raceCtx1 : ReqCtx := ⟨"p", ⟨1, "B"⟩⟩

/-- The token the first request mints: its `createToken` call as issued by
the mint step of request 0. -/
def raceTok0 : String :=
  createToken raceCtx0.pid raceEnv.projectId raceEnv.hmacSecret
    ⟨1000000, 3600⟩ (86400 * 7) raceCtx0.clock

/-- The token the second request mints. -/
def raceTok1 : String :=
  createToken raceCtx1.pid raceEnv.projectId raceEnv.hmacSecret
    ⟨1000000, 3600⟩ (86400 * 7) raceCtx1.clock

/-- The race outcome: both reads first, then each request verifies, mints
and writes. -/
def raceResult : RaceState :=
  runRace raceEnv raceProvider raceCtx0 raceCtx1
    [false, true, false, false, false, true, true, true] ⟨[]⟩

/-! ## Splitting a token on dots -/

/-- Split a character list on `.`, keeping all (possibly empty) groups. -/
def splitDots : List Char → List (List Char)
  | [] => [[]]
  | c :: rest =>
      if c = '.' then [] :: splitDots rest
      else
        match splitDots rest with
        | [] => [[c]]
        | g :: gs => (c :: g) :: gs

/-! ## Lemmas: the base64url codec -/

/-- The URL-safe rewrite carries the standard alphabet to the url alphabet. -/
theorem toBase64Url_b64CharAt : ∀ i < 64, toBase64Url (b64CharAt i) = b64UrlCharAt i := by
  decide

/-- Decoding inverts the url alphabet on indices below 64. -/
theorem b64UrlIndex_b64UrlCharAt : ∀ i < 64, b64UrlIndex (b64UrlCharAt i) = i := by
  decide

/-- Url-alphabet characters at indices below 64 are in the alphabet. -/
theorem isB64UrlChar_b64UrlCharAt : ∀ i < 64, isB64UrlChar (b64UrlCharAt i) = true := by
  decide

/-- Url-alphabet characters are never `=`. -/
theorem b64UrlCharAt_ne_eq : ∀ i < 64, b64UrlCharAt i ≠ '=' := by decide

/-- The rewrite fixes `=`. -/
theorem toBase64Url_eq_char : toBase64Url '=' = '=' := by decide

/-- An alphabet character is not a dot, nor any of the padding characters. -/
theorem isB64UrlChar_excludes {c : Char} (h : isB64UrlChar c = true) :
    c ≠ '.' ∧ c ≠ '+' ∧ c ≠ '/' ∧ c ≠ '=' := by
  refine ⟨?_, ?_, ?_, ?_⟩ <;> rintro rfl <;> exact absurd h (by decide)

/-- Dropping a satisfied prefix passes over an all-satisfying first list. -/
theorem dropWhile_append_of_all {p : Char → Bool} (xs ys : List Char)
    (h : ∀ a ∈ xs, p a = true) :
    (xs ++ ys).dropWhile p = ys.dropWhile p := by
  induction xs with
  | nil => simp
  | cons a t ih =>
      simp only [List.cons_append, List.dropWhile_cons,
        h a (List.mem_cons_self a t), if_true]
      exact ih fun b hb => h b (List.mem_cons_of_mem a hb)

/-- Dropping a satisfied prefix stops inside a first list that survives. -/
theorem dropWhile_append_of_pos {p : Char → Bool} (xs ys : List Char)
    (h : xs.dropWhile p ≠ []) :
    (xs ++ ys).dropWhile p = xs.dropWhile p ++ ys := by
  induction xs with
  | nil => simp at h
  | cons a t ih =>
      by_cases hpa : p a
      · simp only [List.cons_append, List.dropWhile_cons, hpa, if_true] at h ⊢
        exact ih h
      · simp [List.dropWhile_cons, hpa]

/-- Stripping trailing `=` ignores an appended all-`=` suffix. -/
theorem stripTrailingEq_append_all (xs ys : List Char)
    (h : ∀ c ∈ ys, c = '=') :
    stripTrailingEq (xs ++ ys) = stripTrailingEq xs := by
  unfold stripTrailingEq
  rw [List.reverse_append, dropWhile_append_of_all]
  intro a ha
  rw [List.mem_reverse] at ha
  simp [h a ha]

/-- Stripping trailing `=` leaves a list ending in another character alone. -/
theorem stripTrailingEq_last_ne (xs : List Char) {c : Char} (h : c ≠ '=') :
    stripTrailingEq (xs ++ [c]) = xs ++ [c] := by
  unfold stripTrailingEq
  rw [List.reverse_append]
  simp [List.dropWhile_cons, h]

/-- Stripping trailing `=` acts on the second list alone when that list
does not strip to nothing. -/
theorem stripTrailingEq_append_of_ne (xs ys : List Char)
    (h : stripTrailingEq ys ≠ []) :
    stripTrailingEq (xs ++ ys) = xs ++ stripTrailingEq ys := by
  unfold stripTrailingEq at h ⊢
  rw [List.reverse_append, dropWhile_append_of_pos, List.reverse_append,
    List.reverse_reverse]
  intro hnil
  exact h (by rw [hnil]; rfl)

/-- The direct encoder returns something on nonempty input. -/
theorem encNoPadChunks_ne_nil : ∀ bs : List Nat, bs ≠ [] → encNoPadChunks bs ≠ []
  | [], h => absurd rfl h
  | [_], _ => by simp [encNoPadChunks]
  | [_, _], _ => by simp [encNoPadChunks]
  | _ :: _ :: _ :: _, _ => by simp [encNoPadChunks]

/-- The worker's `btoa`-rewrite-strip pipeline equals the direct padding-free
base64url encoder on byte lists. -/
theorem strip_btoa_eq_encNoPad : ∀ bs : List Nat, (∀ b ∈ bs, b < 256) →
    stripTrailingEq ((btoaChunks bs).map toBase64Url) = encNoPadChunks bs := by
  intro bs
  induction bs using btoaChunks.induct with
  | case1 b0 b1 b2 rest ih =>
      intro h
      have hb0 : b0 < 256 := h b0 (by simp)
      have hb1 : b1 < 256 := h b1 (by simp)
      have hb2 : b2 < 256 := h b2 (by simp)
      have e0 := toBase64Url_b64CharAt (b0 / 4) (by omega)
      have e1 := toBase64Url_b64CharAt (b0 % 4 * 16 + b1 / 16) (by omega)
      have e2 := toBase64Url_b64CharAt (b1 % 16 * 4 + b2 / 64) (by omega)
      have e3 := toBase64Url_b64CharAt (b2 % 64) (by omega)
      have ihh := ih fun b hb => h b (by simp [hb])
      simp only [btoaChunks, List.map_cons, e0, e1, e2, e3, encNoPadChunks]
      rcases Decidable.em (rest = []) with hr | hr
      · subst hr
        have : (btoaChunks []).map toBase64Url = [] := rfl
        rw [this]
        have h4 : [b64UrlCharAt (b0 / 4), b64UrlCharAt (b0 % 4 * 16 + b1 / 16),
            b64UrlCharAt (b1 % 16 * 4 + b2 / 64), b64UrlCharAt (b2 % 64)] =
            [b64UrlCharAt (b0 / 4), b64UrlCharAt (b0 % 4 * 16 + b1 / 16),
             b64UrlCharAt (b1 % 16 * 4 + b2 / 64)] ++ [b64UrlCharAt (b2 % 64)] := rfl
        rw [h4,
          stripTrailingEq_last_ne _ (b64UrlCharAt_ne_eq (b2 % 64) (by omega))]
        rfl
      · have hne : stripTrailingEq ((btoaChunks rest).map toBase64Url) ≠ [] := by
          rw [ihh]
          exact encNoPadChunks_ne_nil rest hr
        have h4 : (b64UrlCharAt (b0 / 4) :: b64UrlCharAt (b0 % 4 * 16 + b1 / 16) ::
            b64UrlCharAt (b1 % 16 * 4 + b2 / 64) :: b64UrlCharAt (b2 % 64) ::
            (btoaChunks rest).map toBase64Url) =
            [b64UrlCharAt (b0 / 4), b64UrlCharAt (b0 % 4 * 16 + b1 / 16),
             b64UrlCharAt (b1 % 16 * 4 + b2 / 64), b64UrlCharAt (b2 % 64)] ++
            (btoaChunks rest).map toBase64Url := rfl
        rw [h4, stripTrailingEq_append_of_ne _ _ hne, ihh]
        rfl
  | case2 b0 b1 =>
      intro h
      have hb0 : b0 < 256 := h b0 (by simp)
      have hb1 : b1 < 256 := h b1 (by simp)
      have e0 := toBase64Url_b64CharAt (b0 / 4) (by omega)
      have e1 := toBase64Url_b64CharAt (b0 % 4 * 16 + b1 / 16) (by omega)
      have e2 := toBase64Url_b64CharAt (b1 % 16 * 4) (by omega)
      simp only [btoaChunks, List.map_cons, List.map_nil, e0, e1, e2,
        toBase64Url_eq_char, encNoPadChunks]
      have h4 : [b64UrlCharAt (b0 / 4), b64UrlCharAt (b0 % 4 * 16 + b1 / 16),
          b64UrlCharAt (b1 % 16 * 4), '='] =
          ([b64UrlCharAt (b0 / 4), b64UrlCharAt (b0 % 4 * 16 + b1 / 16)] ++
            [b64UrlCharAt (b1 % 16 * 4)]) ++ ['='] := rfl
      rw [h4, stripTrailingEq_append_all _ _ (by simp),
        stripTrailingEq_last_ne _ (b64UrlCharAt_ne_eq (b1 % 16 * 4) (by omega))]
      rfl
  | case3 b0 =>
      intro h
      have hb0 : b0 < 256 := h b0 (by simp)
      have e0 := toBase64Url_b64CharAt (b0 / 4) (by omega)
      have e1 := toBase64Url_b64CharAt (b0 % 4 * 16) (by omega)
      simp only [btoaChunks, List.map_cons, List.map_nil, e0, e1,
        toBase64Url_eq_char, encNoPadChunks]
      have h4 : [b64UrlCharAt (b0 / 4), b64UrlCharAt (b0 % 4 * 16), '=', '='] =
          ([b64UrlCharAt (b0 / 4)] ++ [b64UrlCharAt (b0 % 4 * 16)]) ++ ['=', '='] := rfl
      rw [h4, stripTrailingEq_append_all _ _ (by simp),
        stripTrailingEq_last_ne _ (b64UrlCharAt_ne_eq (b0 % 4 * 16) (by omega))]
      rfl
  | case4 =>
      intro _
      rfl

/-- Decoding inverts the direct padding-free encoder on byte lists. -/
theorem decChunks_encNoPadChunks : ∀ bs : List Nat, (∀ b ∈ bs, b < 256) →
    decChunks (encNoPadChunks bs) = bs := by
  intro bs
  induction bs using encNoPadChunks.induct with
  | case1 b0 b1 b2 rest ih =>
      intro h
      have hb0 : b0 < 256 := h b0 (by simp)
      have hb1 : b1 < 256 := h b1 (by simp)
      have hb2 : b2 < 256 := h b2 (by simp)
      have e0 := b64UrlIndex_b64UrlCharAt (b0 / 4) (by omega)
      have e1 := b64UrlIndex_b64UrlCharAt (b0 % 4 * 16 + b1 / 16) (by omega)
      have e2 := b64UrlIndex_b64UrlCharAt (b1 % 16 * 4 + b2 / 64) (by omega)
      have e3 := b64UrlIndex_b64UrlCharAt (b2 % 64) (by omega)
      have ihh := ih fun b hb => h b (by simp [hb])
      simp only [encNoPadChunks, decChunks, e0, e1, e2, e3, ihh,
        List.cons.injEq, and_true]
      refine ⟨by omega, by omega, by omega⟩
  | case2 b0 b1 =>
      intro h
      have hb0 : b0 < 256 := h b0 (by simp)
      have hb1 : b1 < 256 := h b1 (by simp)
      have e0 := b64UrlIndex_b64UrlCharAt (b0 / 4) (by omega)
      have e1 := b64UrlIndex_b64UrlCharAt (b0 % 4 * 16 + b1 / 16) (by omega)
      have e2 := b64UrlIndex_b64UrlCharAt (b1 % 16 * 4) (by omega)
      simp only [encNoPadChunks, decChunks, e0, e1, e2, List.cons.injEq, and_true]
      refine ⟨by omega, by omega⟩
  | case3 b0 =>
      intro h
      have hb0 : b0 < 256 := h b0 (by simp)
      have e0 := b64UrlIndex_b64UrlCharAt (b0 / 4) (by omega)
      have e1 := b64UrlIndex_b64UrlCharAt (b0 % 4 * 16) (by omega)
      simp only [encNoPadChunks, decChunks, e0, e1, List.cons.injEq, and_true]
      omega
  | case4 =>
      intro _
      rfl

/-- Every character the direct encoder emits is in the url alphabet. -/
theorem encNoPadChunks_mem_alpha : ∀ bs : List Nat, (∀ b ∈ bs, b < 256) →
    ∀ c ∈ encNoPadChunks bs, isB64UrlChar c = true := by
  intro bs
  induction bs using encNoPadChunks.induct with
  | case1 b0 b1 b2 rest ih =>
      intro h c hc
      have hb0 : b0 < 256 := h b0 (by simp)
      have hb1 : b1 < 256 := h b1 (by simp)
      have hb2 : b2 < 256 := h b2 (by simp)
      simp only [encNoPadChunks, List.mem_cons] at hc
      rcases hc with rfl | rfl | rfl | rfl | hc
      · exact isB64UrlChar_b64UrlCharAt _ (by omega)
      · exact isB64UrlChar_b64UrlCharAt _ (by omega)
      · exact isB64UrlChar_b64UrlCharAt _ (by omega)
      · exact isB64UrlChar_b64UrlCharAt _ (by omega)
      · exact ih (fun b hb => h b (by simp [hb])) c hc
  | case2 b0 b1 =>
      intro h c hc
      have hb0 : b0 < 256 := h b0 (by simp)
      have hb1 : b1 < 256 := h b1 (by simp)
      simp only [encNoPadChunks, List.mem_cons, List.not_mem_nil, or_false] at hc
      rcases hc with rfl | rfl | rfl
      · exact isB64UrlChar_b64UrlCharAt _ (by omega)
      · exact isB64UrlChar_b64UrlCharAt _ (by omega)
      · exact isB64UrlChar_b64UrlCharAt _ (by omega)
  | case3 b0 =>
      intro h c hc
      have hb0 : b0 < 256 := h b0 (by simp)
      simp only [encNoPadChunks, List.mem_cons, List.not_mem_nil, or_false] at hc
      rcases hc with rfl | rfl
      · exact isB64UrlChar_b64UrlCharAt _ (by omega)
      · exact isB64UrlChar_b64UrlCharAt _ (by omega)
  | case4 =>
      intro _ c hc
      simp [encNoPadChunks] at hc

/-- The worker's encoder, as a character list. -/
theorem base64UrlEncode_toList (bs : List Nat) (h : ∀ b ∈ bs, b < 256) :
    (base64UrlEncode bs).toList = encNoPadChunks bs := by
  show stripTrailingEq ((btoaChunks bs).map toBase64Url) = encNoPadChunks bs
  exact strip_btoa_eq_encNoPad bs h

/-- Decoding inverts the worker's encoder on byte lists. -/
theorem base64UrlDecode_encode (bs : List Nat) (h : ∀ b ∈ bs, b < 256) :
    base64UrlDecode (base64UrlEncode bs) = bs := by
  show decChunks (base64UrlEncode bs).toList = bs
  rw [base64UrlEncode_toList bs h]
  exact decChunks_encNoPadChunks bs h

/-- Every character of the worker's encoding is in the url alphabet:
in particular no `+`, `/`, `=` padding, and no `.`. -/
theorem base64UrlEncode_mem_alpha (bs : List Nat) (h : ∀ b ∈ bs, b < 256) :
    ∀ c ∈ (base64UrlEncode bs).toList, isB64UrlChar c = true := by
  rw [base64UrlEncode_toList bs h]
  exact encNoPadChunks_mem_alpha bs h

/-- The worker's encoder is injective on byte lists. -/
theorem base64UrlEncode_inj {bs1 bs2 : List Nat} (h1 : ∀ b ∈ bs1, b < 256)
    (h2 : ∀ b ∈ bs2, b < 256) (h : base64UrlEncode bs1 = base64UrlEncode bs2) :
    bs1 = bs2 := by
  have := congrArg base64UrlDecode h
  rwa [base64UrlDecode_encode bs1 h1, base64UrlDecode_encode bs2 h2] at this

/-! ## Lemmas: UTF-8 and digest bytes are bytes -/

/-- Every UTF-8 byte of a code point is below 256. -/
theorem utf8EncodeCharNat_lt (c : Char) : ∀ b ∈ utf8EncodeCharNat c, b < 256 := by
  have hv : c.toNat < 1114112 := by
    have he : c.toNat = c.val.toNat := rfl
    rcases c.valid with h | ⟨_, h2⟩ <;> omega
  intro b hb
  simp only [utf8EncodeCharNat] at hb
  split_ifs at hb <;> simp only [List.mem_cons, List.not_mem_nil, or_false] at hb <;>
    rcases hb with rfl | rfl | rfl | rfl <;> omega

/-- Every UTF-8 byte of a string is below 256. -/
theorem utf8Bytes_lt (s : String) : ∀ b ∈ utf8Bytes s, b < 256 := by
  intro b hb
  simp only [utf8Bytes, List.mem_flatten, List.mem_map] at hb
  obtain ⟨l, ⟨c, _, rfl⟩, hbl⟩ := hb
  exact utf8EncodeCharNat_lt c b hbl

/-- Every byte of a word unpacking is below 256. -/
theorem wordBytes_lt (w : Nat) : ∀ b ∈ wordBytes w, b < 256 := by
  intro b hb
  simp only [wordBytes, List.mem_cons, List.not_mem_nil, or_false] at hb
  rcases hb with rfl | rfl | rfl | rfl <;> omega

/-- Every byte of a SHA-256 digest is below 256. -/
theorem sha256_lt (m : List Nat) : ∀ b ∈ sha256 m, b < 256 := by
  intro b hb
  simp only [sha256, List.mem_flatten, List.mem_map] at hb
  obtain ⟨l, ⟨w, _, rfl⟩, hbl⟩ := hb
  exact wordBytes_lt w b hbl

/-- Every byte of an HMAC-SHA-256 tag is below 256. -/
theorem hmacSha256_lt (k m : List Nat) : ∀ b ∈ hmacSha256 k m, b < 256 := by
  intro b hb
  simp only [hmacSha256] at hb
  exact sha256_lt _ b hb

/-! ## Lemmas: splitting on dots -/

/-- `splitDots` always returns at least one group. -/
theorem splitDots_ne_nil (cs : List Char) : splitDots cs ≠ [] := by
  induction cs with
  | nil => simp [splitDots]
  | cons c t ih =>
      by_cases h : c = '.'
      · simp [splitDots, h]
      · rcases hst : splitDots t with _ | ⟨g, gs⟩
        · exact absurd hst ih
        · simp [splitDots, h, hst]

/-- A dot-free list is a single group. -/
theorem splitDots_no_dot (a : List Char) (h : ∀ c ∈ a, c ≠ '.') :
    splitDots a = [a] := by
  induction a with
  | nil => rfl
  | cons c t ih =>
      have hc : ¬ c = '.' := h c (List.mem_cons_self c t)
      rw [splitDots, if_neg hc, ih fun b hb => h b (List.mem_cons_of_mem c hb)]

/-- Splitting after a dot-free prefix peels that prefix off as one group. -/
theorem splitDots_append (a r : List Char) (h : ∀ c ∈ a, c ≠ '.') :
    splitDots (a ++ '.' :: r) = a :: splitDots r := by
  induction a with
  | nil => simp [splitDots]
  | cons c t ih =>
      have hc : ¬ c = '.' := h c (List.mem_cons_self c t)
      rw [List.cons_append, splitDots, if_neg hc,
        ih fun b hb => h b (List.mem_cons_of_mem c hb)]

/-! ## Lemmas: the handler -/

/-- Falsiness of a present string is emptiness. -/
theorem isFalsy_some (s : String) : isFalsy (some s) = decide (s = "") := rfl

/-- An absent value is falsy. -/
theorem isFalsy_none : isFalsy none = true := rfl

/-- With the configuration present, a present non-empty `paymentId`, and no
stored record, the handler runs the verify-and-mint path. -/
theorem handleVerifyPayment_miss (env : WorkerEnv) (clock : Clock) (pid : String)
    (provider : String → ProviderResult) (store : Store)
    (hkey : isFalsy env.apiKey = false) (hpid : pid ≠ "")
    (hmiss : store.get ("payment:" ++ pid) = none) :
    handleVerifyPayment env clock (.parsed (some pid)) provider store =
      verifyAndMint env clock pid provider store := by
  simp [handleVerifyPayment, hkey, isFalsy_some, hpid, hmiss]

/-- The verify-and-mint path always performs the provider round-trip. -/
theorem verifyAndMint_providerCalled (env : WorkerEnv) (clock : Clock)
    (pid : String) (provider : String → ProviderResult) (store : Store) :
    (verifyAndMint env clock pid provider store).providerCalled = true := by
  unfold verifyAndMint
  rcases provider pid with st | ⟨s, t⟩ | _
  · by_cases hne : st = "succeeded" <;> simp [hne]
  · rfl
  · rfl

/-! ## The claims -/

/-- C1: for every `paymentId` with a stored credential, a verify request
for it returns the stored credential byte-identically with status 200,
without calling the payment provider, without minting, and with the store
unchanged. -/
theorem c1_idempotent_redemption (env : WorkerEnv) (clock : Clock)
    (provider : String → ProviderResult) (store : Store) (pid tok : String)
    (hkey : isFalsy env.apiKey = false) (hpid : pid ≠ "") (htok : tok ≠ "")
    (hstore : store.get ("payment:" ++ pid) = some tok) :
    handleVerifyPayment env clock (.parsed (some pid)) provider store =
      ⟨200, .token tok, store, true, false, none⟩ := by
  simp [handleVerifyPayment, hkey, isFalsy_some, hpid, hstore, htok]

/-- C1 witness: a store holding a credential for `pay_1` replays it. -/
theorem c1_idempotent_redemption_witness :
    isFalsy (WorkerEnv.mk (some "key") "proj" "secret").apiKey = false ∧
    "pay_1" ≠ "" ∧ "tok.xyz.sig" ≠ "" ∧
    (Store.mk [("payment:pay_1", "tok.xyz.sig", 604800)]).get "payment:pay_1" =
      some "tok.xyz.sig" ∧
    handleVerifyPayment ⟨some "key", "proj", "secret"⟩ ⟨0, "Z"⟩
      (.parsed (some "pay_1")) (fun _ => .ok "succeeded")
      ⟨[("payment:pay_1", "tok.xyz.sig", 604800)]⟩ =
      ⟨200, .token "tok.xyz.sig", ⟨[("payment:pay_1", "tok.xyz.sig", 604800)]⟩,
       true, false, none⟩ :=
  ⟨by decide, by decide, by decide, by decide,
   c1_idempotent_redemption ⟨some "key", "proj", "secret"⟩ ⟨0, "Z"⟩
     (fun _ => .ok "succeeded") ⟨[("payment:pay_1", "tok.xyz.sig", 604800)]⟩
     "pay_1" "tok.xyz.sig" (by decide) (by decide) (by decide) (by decide)⟩

/-- C8: a verify request whose body has no `paymentId` is answered 400 with
`paymentId is required`; the provider is not contacted and the store is
neither read nor written. -/
theorem c8_missing_payment_id (env : WorkerEnv) (clock : Clock)
    (provider : String → ProviderResult) (store : Store)
    (hkey : isFalsy env.apiKey = false) :
    handleVerifyPayment env clock (.parsed none) provider store =
      ⟨400, .err "paymentId is required", store, false, false, none⟩ := by
  simp [handleVerifyPayment, hkey, isFalsy_none]

/-- C8 witness: the rejection at a concrete configured environment. -/
theorem c8_missing_payment_id_witness :
    isFalsy (WorkerEnv.mk (some "key") "proj" "secret").apiKey = false ∧
    handleVerifyPayment ⟨some "key", "proj", "secret"⟩ ⟨0, "Z"⟩ (.parsed none)
      (fun _ => .ok "succeeded") ⟨[]⟩ =
      ⟨400, .err "paymentId is required", ⟨[]⟩, false, false, none⟩ :=
  ⟨by decide,
   c8_missing_payment_id ⟨some "key", "proj", "secret"⟩ ⟨0, "Z"⟩
     (fun _ => .ok "succeeded") ⟨[]⟩ (by decide)⟩

/-- C10: with `DODO_API_KEY` absent, every verify request — any body, any
store contents, even a `paymentId` with a stored credential — is answered
500 `Payment system not configured` with the store neither read nor
written, the provider never contacted, and nothing minted. -/
theorem c10_config_check_precedes_replay (env : WorkerEnv) (clock : Clock)
    (body : BodyParse) (provider : String → ProviderResult) (store : Store)
    (hkey : env.apiKey = none) :
    handleVerifyPayment env clock body provider store =
      ⟨500, .err "Payment system not configured", store, false, false, none⟩ := by
  simp [handleVerifyPayment, hkey, isFalsy_none]

/-- C10 witness: even with a credential stored for `pay_1`, the
unconfigured worker answers 500 and performs no store read. -/
theorem c10_config_check_precedes_replay_witness :
    (WorkerEnv.mk none "proj" "secret").apiKey = none ∧
    handleVerifyPayment ⟨none, "proj", "secret"⟩ ⟨0, "Z"⟩
      (.parsed (some "pay_1")) (fun _ => .ok "succeeded")
      ⟨[("payment:pay_1", "tok.xyz.sig", 604800)]⟩ =
      ⟨500, .err "Payment system not configured",
       ⟨[("payment:pay_1", "tok.xyz.sig", 604800)]⟩, false, false, none⟩ :=
  ⟨rfl,
   c10_config_check_precedes_replay ⟨none, "proj", "secret"⟩ ⟨0, "Z"⟩
     (.parsed (some "pay_1")) (fun _ => .ok "succeeded")
     ⟨[("payment:pay_1", "tok.xyz.sig", 604800)]⟩ rfl⟩

/-- C7: with configuration present, a present `paymentId` and no stored
record, a provider status other than `succeeded` yields 400
`Payment not completed` carrying that status, with nothing minted and the
store unchanged — so a retry re-invokes the provider — while a `succeeded`
status yields exactly one minted, stored and returned token; and a mint
happens only under a `succeeded` status. -/
theorem c7_settlement_gating (env : WorkerEnv) (clock : Clock) (pid : String)
    (provider : String → ProviderResult) (store : Store)
    (hkey : isFalsy env.apiKey = false) (hpid : pid ≠ "")
    (hmiss : store.get ("payment:" ++ pid) = none) :
    (∀ st, provider pid = .ok st → st ≠ "succeeded" →
      handleVerifyPayment env clock (.parsed (some pid)) provider store =
        ⟨400, .errStatus "Payment not completed" st, store, true, true, none⟩) ∧
    (provider pid = .ok "succeeded" →
      handleVerifyPayment env clock (.parsed (some pid)) provider store =
        ⟨200,
         .token (createToken pid env.projectId env.hmacSecret
           ⟨1000000, 3600⟩ (86400 * 7) clock),
         store.put ("payment:" ++ pid)
           (createToken pid env.projectId env.hmacSecret
             ⟨1000000, 3600⟩ (86400 * 7) clock) (86400 * 7),
         true, true,
         some (createToken pid env.projectId env.hmacSecret
           ⟨1000000, 3600⟩ (86400 * 7) clock)⟩) ∧
    ((handleVerifyPayment env clock (.parsed (some pid)) provider store).minted
        ≠ none →
      provider pid = .ok "succeeded") ∧
    (∀ st, provider pid = .ok st → st ≠ "succeeded" →
      ∀ (clock2 : Clock) (provider2 : String → ProviderResult),
        (handleVerifyPayment env clock2 (.parsed (some pid)) provider2
          (handleVerifyPayment env clock (.parsed (some pid)) provider
            store).store).providerCalled = true) := by
  rw [handleVerifyPayment_miss env clock pid provider store hkey hpid hmiss]
  refine ⟨?_, ?_, ?_, ?_⟩
  · intro st hp hne
    simp [verifyAndMint, hp, hne]
  · intro hp
    simp [verifyAndMint, hp]
  · intro hm
    rcases hp : provider pid with st | ⟨s, t⟩ | _
    · by_cases hne : st = "succeeded"
      · rw [hne]
      · exfalso
        simp [verifyAndMint, hp, hne] at hm
    · exfalso
      simp [verifyAndMint, hp] at hm
    · exfalso
      simp [verifyAndMint, hp] at hm
  · intro st hp hne clock2 provider2
    have hstore : (verifyAndMint env clock pid provider store).store = store := by
      simp [verifyAndMint, hp, hne]
    rw [hstore,
      handleVerifyPayment_miss env clock2 pid provider2 store hkey hpid hmiss]
    exact verifyAndMint_providerCalled env clock2 pid provider2 store

/-- C7 witness: the gating conjunction at a concrete configured
environment with a provider reporting `processing`. -/
theorem c7_settlement_gating_witness :
    isFalsy (WorkerEnv.mk (some "key") "proj" "secret").apiKey = false ∧
    "pay_1" ≠ "" ∧
    (Store.mk []).get "payment:pay_1" = none ∧
    (∀ st, (fun _ => ProviderResult.ok "processing") "pay_1" = .ok st →
      st ≠ "succeeded" →
      handleVerifyPayment ⟨some "key", "proj", "secret"⟩ ⟨0, "Z"⟩
        (.parsed (some "pay_1")) (fun _ => ProviderResult.ok "processing") ⟨[]⟩ =
        ⟨400, .errStatus "Payment not completed" st, ⟨[]⟩, true, true, none⟩) := by
  refine ⟨by decide, by decide, by decide, ?_⟩
  exact (c7_settlement_gating ⟨some "key", "proj", "secret"⟩ ⟨0, "Z"⟩ "pay_1"
    (fun _ => ProviderResult.ok "processing") ⟨[]⟩
    (by decide) (by decide) (by decide)).1

/-- C6: the budget passed to the issuer is embedded exactly — the payload
segment of the credential decodes to the payload JSON whose `budget.ai` and
`budget.compute` equal the values passed in — and the worker's redemption
path mints with `ai = 1000000` and `compute = 3600`. -/
theorem c6_budget_preserved (u p : String) (b : Budget) (e : Nat) (c : Clock)
    (env : WorkerEnv) (clock : Clock) (pid : String)
    (provider : String → ProviderResult) (store : Store)
    (hkey : isFalsy env.apiKey = false) (hpid : pid ≠ "")
    (hmiss : store.get ("payment:" ++ pid) = none)
    (hok : provider pid = .ok "succeeded") :
    base64UrlDecode (encodedPayload (tokenPayload u p b e c)) =
      utf8Bytes (payloadJson (tokenPayload u p b e c)) ∧
    (tokenPayload u p b e c).budget.ai = b.ai ∧
    (tokenPayload u p b e c).budget.compute = b.compute ∧
    (handleVerifyPayment env clock (.parsed (some pid)) provider store).minted =
      some (createToken pid env.projectId env.hmacSecret
        ⟨1000000, 3600⟩ (86400 * 7) clock) := by
  refine ⟨?_, rfl, rfl, ?_⟩
  · exact base64UrlDecode_encode _ (utf8Bytes_lt _)
  · rw [handleVerifyPayment_miss env clock pid provider store hkey hpid hmiss]
    simp [verifyAndMint, hok]

/-- C6 witness: the preservation conjunction at concrete inputs. -/
theorem c6_budget_preserved_witness :
    isFalsy (WorkerEnv.mk (some "key") "proj" "secret").apiKey = false ∧
    "pay_1" ≠ "" ∧
    (Store.mk []).get "payment:pay_1" = none ∧
    (fun _ => ProviderResult.ok "succeeded") "pay_1" = .ok "succeeded" ∧
    ((tokenPayload "pay_1" "proj" ⟨1000000, 3600⟩ 604800 ⟨0, "Z"⟩).budget.ai =
        (Budget.mk 1000000 3600).ai ∧
      (tokenPayload "pay_1" "proj" ⟨1000000, 3600⟩ 604800 ⟨0, "Z"⟩).budget.compute =
        (Budget.mk 1000000 3600).compute) := by
  refine ⟨by decide, by decide, by decide, rfl, ?_, ?_⟩
  · exact (c6_budget_preserved "pay_1" "proj" ⟨1000000, 3600⟩ 604800 ⟨0, "Z"⟩
      ⟨some "key", "proj", "secret"⟩ ⟨0, "Z"⟩ "pay_1"
      (fun _ => ProviderResult.ok "succeeded") ⟨[]⟩
      (by decide) (by decide) (by decide) rfl).2.1
  · exact (c6_budget_preserved "pay_1" "proj" ⟨1000000, 3600⟩ 604800 ⟨0, "Z"⟩
      ⟨some "key", "proj", "secret"⟩ ⟨0, "Z"⟩ "pay_1"
      (fun _ => ProviderResult.ok "succeeded") ⟨[]⟩
      (by decide) (by decide) (by decide) rfl).2.2.1

/-- C5: with a positive `ttlSeconds`, the issued payload has
`iat = Math.floor(Date.now() / 1000)` (the current Unix second at
issuance), `exp = iat + ttlSeconds`, and hence `exp > iat`. -/
theorem c5_timestamp_postcondition (u p : String) (b : Budget) (e : Nat)
    (c : Clock) (h : 0 < e) :
    (tokenPayload u p b e c).iat = c.nowMs / 1000 ∧
    (tokenPayload u p b e c).exp = (tokenPayload u p b e c).iat + e ∧
    (tokenPayload u p b e c).iat < (tokenPayload u p b e c).exp := by
  refine ⟨rfl, rfl, ?_⟩
  show c.nowMs / 1000 < c.nowMs / 1000 + e
  omega

/-- C5 witness: the 7-day expiry of the redemption path. -/
theorem c5_timestamp_postcondition_witness :
    0 < 604800 ∧
    ((tokenPayload "pay_1" "proj" ⟨1000000, 3600⟩ 604800
        ⟨1700000000123, "Z"⟩).iat = 1700000000123 / 1000 ∧
     (tokenPayload "pay_1" "proj" ⟨1000000, 3600⟩ 604800
        ⟨1700000000123, "Z"⟩).exp =
       (tokenPayload "pay_1" "proj" ⟨1000000, 3600⟩ 604800
         ⟨1700000000123, "Z"⟩).iat + 604800 ∧
     (tokenPayload "pay_1" "proj" ⟨1000000, 3600⟩ 604800
        ⟨1700000000123, "Z"⟩).iat <
       (tokenPayload "pay_1" "proj" ⟨1000000, 3600⟩ 604800
         ⟨1700000000123, "Z"⟩).exp) :=
  ⟨by decide,
   c5_timestamp_postcondition "pay_1" "proj" ⟨1000000, 3600⟩ 604800
     ⟨1700000000123, "Z"⟩ (by decide)⟩

/-- C9: issuance is deterministic — two runs of `createToken` under the
same clock readings and the same inputs produce identical credential
strings; the embedding is a pure function of its inputs and the clock. -/
theorem c9_deterministic_issuance (u p s : String) (b : Budget) (e : Nat)
    (c1 c2 : Clock) (h : c1 = c2) :
    createToken u p s b e c1 = createToken u p s b e c2 := by
  rw [h]

/-- C9 witness: two runs at a fixed clock agree. -/
theorem c9_deterministic_issuance_witness :
    (Clock.mk 1700000000000 "Z") = (Clock.mk 1700000000000 "Z") ∧
    createToken "pay_1" "proj" "secret" ⟨1000000, 3600⟩ 604800
      ⟨1700000000000, "Z"⟩ =
    createToken "pay_1" "proj" "secret" ⟨1000000, 3600⟩ 604800
      ⟨1700000000000, "Z"⟩ :=
  ⟨rfl,
   c9_deterministic_issuance "pay_1" "proj" "secret" ⟨1000000, 3600⟩ 604800
     ⟨1700000000000, "Z"⟩ ⟨1700000000000, "Z"⟩ rfl⟩

/-! ## Lemmas: the token string and its segments -/

/-- `createToken` returns its three segments joined by dots. -/
theorem createToken_eq_segments (u p s : String) (b : Budget) (e : Nat)
    (c : Clock) :
    createToken u p s b e c =
      encodedHeader ++ "." ++ encodedPayload (tokenPayload u p b e c) ++ "." ++
        tokenSignature s (tokenPayload u p b e c) := rfl

/-- The character list of a token: the three segments with dot separators. -/
theorem createToken_toList (u p s : String) (b : Budget) (e : Nat) (c : Clock) :
    (createToken u p s b e c).toList =
      encodedHeader.toList ++ '.' ::
        ((encodedPayload (tokenPayload u p b e c)).toList ++ '.' ::
          (tokenSignature s (tokenPayload u p b e c)).toList) := by
  rw [createToken_eq_segments]
  have hd : ("." : String).data = ['.'] := rfl
  simp [String.toList, String.data_append, hd]

/-- Every character of the header segment is in the url alphabet. -/
theorem encodedHeader_alpha :
    ∀ ch ∈ encodedHeader.toList, isB64UrlChar ch = true :=
  base64UrlEncode_mem_alpha _ (utf8Bytes_lt _)

/-- Every character of the payload segment is in the url alphabet. -/
theorem encodedPayload_alpha (p : Payload) :
    ∀ ch ∈ (encodedPayload p).toList, isB64UrlChar ch = true :=
  base64UrlEncode_mem_alpha _ (utf8Bytes_lt _)

/-- Every character of the signature segment is in the url alphabet. -/
theorem tokenSignature_alpha (s : String) (p : Payload) :
    ∀ ch ∈ (tokenSignature s p).toList, isB64UrlChar ch = true :=
  base64UrlEncode_mem_alpha _ (hmacSha256_lt _ _)

/-- Splitting a token on dots recovers exactly its three segments. -/
theorem splitDots_createToken (u p s : String) (b : Budget) (e : Nat)
    (c : Clock) :
    splitDots (createToken u p s b e c).toList =
      [encodedHeader.toList, (encodedPayload (tokenPayload u p b e c)).toList,
       (tokenSignature s (tokenPayload u p b e c)).toList] := by
  rw [createToken_toList,
    splitDots_append _ _
      (fun ch hch => (isB64UrlChar_excludes (encodedHeader_alpha ch hch)).1),
    splitDots_append _ _
      (fun ch hch => (isB64UrlChar_excludes (encodedPayload_alpha _ ch hch)).1),
    splitDots_no_dot _
      (fun ch hch => (isB64UrlChar_excludes (tokenSignature_alpha _ _ ch hch)).1)]

/-- C3: a credential is exactly three dot-joined segments, each made only
of unpadded base64url characters (never `+`, `/` or `=`); the first decodes
to the header JSON, the second to the payload JSON built from the inputs,
and the third is the encoded signature bytes. -/
theorem c3_credential_format (u p s : String) (b : Budget) (e : Nat)
    (c : Clock) :
    createToken u p s b e c =
      encodedHeader ++ "." ++ encodedPayload (tokenPayload u p b e c) ++ "." ++
        tokenSignature s (tokenPayload u p b e c) ∧
    splitDots (createToken u p s b e c).toList =
      [encodedHeader.toList, (encodedPayload (tokenPayload u p b e c)).toList,
       (tokenSignature s (tokenPayload u p b e c)).toList] ∧
    (∀ ch ∈ encodedHeader.toList ++
        (encodedPayload (tokenPayload u p b e c)).toList ++
        (tokenSignature s (tokenPayload u p b e c)).toList,
      isB64UrlChar ch = true ∧ ch ≠ '+' ∧ ch ≠ '/' ∧ ch ≠ '=') ∧
    base64UrlDecode encodedHeader = utf8Bytes headerJson ∧
    base64UrlDecode (encodedPayload (tokenPayload u p b e c)) =
      utf8Bytes (payloadJson (tokenPayload u p b e c)) ∧
    tokenSignature s (tokenPayload u p b e c) =
      base64UrlEncode (hmacSha256 (utf8Bytes s)
        (utf8Bytes (signingInput (tokenPayload u p b e c)))) := by
  refine ⟨createToken_eq_segments u p s b e c,
    splitDots_createToken u p s b e c, ?_, ?_, ?_, rfl⟩
  · intro ch hch
    rcases List.mem_append.1 hch with hch | hch
    · rcases List.mem_append.1 hch with hch | hch
      · have h := encodedHeader_alpha ch hch
        exact ⟨h, (isB64UrlChar_excludes h).2⟩
      · have h := encodedPayload_alpha _ ch hch
        exact ⟨h, (isB64UrlChar_excludes h).2⟩
    · have h := tokenSignature_alpha _ _ ch hch
      exact ⟨h, (isB64UrlChar_excludes h).2⟩
  · exact base64UrlDecode_encode _ (utf8Bytes_lt _)
  · exact base64UrlDecode_encode _ (utf8Bytes_lt _)

/-- C4: the third segment of a credential equals the base64url encoding of
the HMAC-SHA-256 tag over `encodedHeader + "." + encodedPayload` under the
issuing secret; an encoding computed from any different tag (as produced by
a different secret) does not match it. -/
theorem c4_signature_roundtrip (u p s s2 : String) (b : Budget) (e : Nat)
    (c : Clock) :
    (splitDots (createToken u p s b e c).toList).getD 2 [] =
      (base64UrlEncode (hmacSha256 (utf8Bytes s)
        (utf8Bytes (signingInput (tokenPayload u p b e c))))).toList ∧
    (hmacSha256 (utf8Bytes s2)
        (utf8Bytes (signingInput (tokenPayload u p b e c))) ≠
      hmacSha256 (utf8Bytes s)
        (utf8Bytes (signingInput (tokenPayload u p b e c))) →
      base64UrlEncode (hmacSha256 (utf8Bytes s2)
          (utf8Bytes (signingInput (tokenPayload u p b e c)))) ≠
        tokenSignature s (tokenPayload u p b e c)) := by
  constructor
  · rw [splitDots_createToken]
    rfl
  · intro hne heq
    exact hne (base64UrlEncode_inj (hmacSha256_lt _ _) (hmacSha256_lt _ _) heq)

set_option maxRecDepth 100000

/-- C4 witness: at concrete inputs, the tag under secret `q` differs from
the tag under the issuing secret `k`, and its encoding does not match the
credential's signature segment. -/
theorem c4_signature_roundtrip_witness :
    hmacSha256 (utf8Bytes "q")
        (utf8Bytes (signingInput (tokenPayload "u" "j" ⟨1, 2⟩ 5 ⟨0, "T"⟩))) ≠
      hmacSha256 (utf8Bytes "k")
        (utf8Bytes (signingInput (tokenPayload "u" "j" ⟨1, 2⟩ 5 ⟨0, "T"⟩))) ∧
    base64UrlEncode (hmacSha256 (utf8Bytes "q")
        (utf8Bytes (signingInput (tokenPayload "u" "j" ⟨1, 2⟩ 5 ⟨0, "T"⟩)))) ≠
      tokenSignature "k" (tokenPayload "u" "j" ⟨1, 2⟩ 5 ⟨0, "T"⟩) :=
  have h : hmacSha256 (utf8Bytes "q")
      (utf8Bytes (signingInput (tokenPayload "u" "j" ⟨1, 2⟩ 5 ⟨0, "T"⟩))) ≠
    hmacSha256 (utf8Bytes "k")
      (utf8Bytes (signingInput (tokenPayload "u" "j" ⟨1, 2⟩ 5 ⟨0, "T"⟩))) := by
    decide
  ⟨h, (c4_signature_roundtrip "u" "j" "k" "q" ⟨1, 2⟩ 5 ⟨0, "T"⟩).2 h⟩

/-- The two racing mints produce different credential strings: their
payload JSONs differ in `windowStart`, so the two credentials differ as
strings (checked by evaluation). -/
theorem raceTok_ne : raceTok0 ≠ raceTok1 := by decide

/-- Step 1 of the race: request 0 reads the empty store and misses. -/
theorem raceStep1 : raceStep raceEnv raceProvider raceCtx0 raceCtx1
    ⟨⟨[]⟩, .start, .start, 0⟩ false =
    ⟨⟨[]⟩, .afterRead none, .start, 0⟩ := rfl

/-- Step 2: request 1 reads the still-empty store and also misses. -/
theorem raceStep2 : raceStep raceEnv raceProvider raceCtx0 raceCtx1
    ⟨⟨[]⟩, .afterRead none, .start, 0⟩ true =
    ⟨⟨[]⟩, .afterRead none, .afterRead none, 0⟩ := rfl

/-- Step 3: request 0 verifies; the provider reports settlement. -/
theorem raceStep3 : raceStep raceEnv raceProvider raceCtx0 raceCtx1
    ⟨⟨[]⟩, .afterRead none, .afterRead none, 0⟩ false =
    ⟨⟨[]⟩, .afterVerify "succeeded", .afterRead none, 0⟩ := rfl

/-- Step 4: request 0 mints its token — the first `createToken` run. -/
theorem raceStep4 : raceStep raceEnv raceProvider raceCtx0 raceCtx1
    ⟨⟨[]⟩, .afterVerify "succeeded", .afterRead none, 0⟩ false =
    ⟨⟨[]⟩, .afterMint raceTok0, .afterRead none, 1⟩ := rfl

/-- Step 5: request 0 writes its token and completes. -/
theorem raceStep5 : raceStep raceEnv raceProvider raceCtx0 raceCtx1
    ⟨⟨[]⟩, .afterMint raceTok0, .afterRead none, 1⟩ false =
    ⟨⟨[("payment:" ++ raceCtx0.pid, raceTok0, 86400 * 7)]⟩,
     .done 200 (.token raceTok0), .afterRead none, 1⟩ := rfl

/-- Step 6: request 1, which already read a miss, verifies. -/
theorem raceStep6 : raceStep raceEnv raceProvider raceCtx0 raceCtx1
    ⟨⟨[("payment:" ++ raceCtx0.pid, raceTok0, 86400 * 7)]⟩,
     .done 200 (.token raceTok0), .afterRead none, 1⟩ true =
    ⟨⟨[("payment:" ++ raceCtx0.pid, raceTok0, 86400 * 7)]⟩,
     .done 200 (.token raceTok0), .afterVerify "succeeded", 1⟩ := rfl

/-- Step 7: request 1 mints its own token — the second `createToken` run. -/
theorem raceStep7 : raceStep raceEnv raceProvider raceCtx0 raceCtx1
    ⟨⟨[("payment:" ++ raceCtx0.pid, raceTok0, 86400 * 7)]⟩,
     .done 200 (.token raceTok0), .afterVerify "succeeded", 1⟩ true =
    ⟨⟨[("payment:" ++ raceCtx0.pid, raceTok0, 86400 * 7)]⟩,
     .done 200 (.token raceTok0), .afterMint raceTok1, 2⟩ := rfl

/-- Step 8: request 1 overwrites the stored token and completes. -/
theorem raceStep8 : raceStep raceEnv raceProvider raceCtx0 raceCtx1
    ⟨⟨[("payment:" ++ raceCtx0.pid, raceTok0, 86400 * 7)]⟩,
     .done 200 (.token raceTok0), .afterMint raceTok1, 2⟩ true =
    ⟨⟨[("payment:" ++ raceCtx1.pid, raceTok1, 86400 * 7),
       ("payment:" ++ raceCtx0.pid, raceTok0, 86400 * 7)]⟩,
     .done 200 (.token raceTok0), .done 200 (.token raceTok1), 2⟩ := rfl

/-- The full race trace, by chaining the eight step lemmas. -/
theorem raceResult_eq : raceResult =
    ⟨⟨[("payment:" ++ raceCtx1.pid, raceTok1, 86400 * 7),
       ("payment:" ++ raceCtx0.pid, raceTok0, 86400 * 7)]⟩,
     .done 200 (.token raceTok0), .done 200 (.token raceTok1), 2⟩ := by
  show List.foldl (raceStep raceEnv raceProvider raceCtx0 raceCtx1)
    ⟨⟨[]⟩, .start, .start, 0⟩
    [false, true, false, false, false, true, true, true] = _
  rw [List.foldl_cons, raceStep1, List.foldl_cons, raceStep2,
    List.foldl_cons, raceStep3, List.foldl_cons, raceStep4,
    List.foldl_cons, raceStep5, List.foldl_cons, raceStep6,
    List.foldl_cons, raceStep7, List.foldl_cons, raceStep8, List.foldl_nil]

set_option maxHeartbeats 2000000 in
/-- C2: the code_bug witness for the no-double-mint claim.  The handler's
KV write is an unconditional `put` performed after a separate, unguarded
`get`, so the interleaving in which both requests read a miss before either
writes is permitted — and in it `createToken` runs twice, the two callers
observe different credentials, and the store ends with the second token,
contradicting "exactly one credential is stored, every caller observes that
same credential" and the claimed store-if-absent write. -/
theorem c2_double_mint_race :
    raceResult.mints = 2 ∧
    raceResult.phase0 = .done 200 (.token raceTok0) ∧
    raceResult.phase1 = .done 200 (.token raceTok1) ∧
    raceResult.store.get "payment:p" = some raceTok1 ∧
    raceTok0 ≠ raceTok1 := by
  rw [raceResult_eq]
  exact ⟨rfl, rfl, rfl, rfl, raceTok_ne⟩

end SchengenWorker
